import Mathlib

/-!
Shallow embedding of the parts of the ccfx repository (src/ccfx/ccfx.py and
src/ccfx/sqliteConnection.py) needed to settle the frozen claims, together
with the theorems that settle them.

Python strings are modelled as `List Char`; Python `None` / nullable values
as `Option`; NumPy floating point arithmetic as exact rational arithmetic
(`ℚ`), with NaN results modelled by `Option.none`.
-/

namespace Ccfx

/-! ## POSIX path helpers (CPython posixpath / genericpath semantics) -/

/-- Model of CPython posixpath.basename: everything after the last slash,
computed as the longest slash-free suffix. -/
def pyBasename (p : List Char) : List Char :=
  ((p.reverse).takeWhile (fun c => c ≠ '/')).reverse

/-- The head part of posixpath split: everything up to and including the
last slash (empty when there is no slash). -/
def pySplitHead (p : List Char) : List Char :=
  ((p.reverse).dropWhile (fun c => c ≠ '/')).reverse

/-- Model of CPython posixpath.dirname: the head up to the last slash, with
trailing slashes stripped unless the head consists only of slashes. -/
def pyDirname (p : List Char) : List Char :=
  let head := pySplitHead p
  if head ≠ [] ∧ ¬ head.all (fun c => c = '/') then
    ((head.reverse).dropWhile (fun c => c = '/')).reverse
  else
    head

/-- Model of CPython os.path.splitext applied to a slash-free base name:
split at the last dot, except that a name whose characters before that dot
are all dots (e.g. a leading-dot file) is not split; returns the root. -/
def splitextRoot (b : List Char) : List Char :=
  let headToLastDot := ((b.reverse).dropWhile (fun c => c ≠ '.')).reverse
  if headToLastDot = [] then b
  else
    let root := headToLastDot.dropLast
    if root.all (fun c => c = '.') then b else root

/-! ## listFiles (ccfx.py lines 40-60), claim C7

The source normalises the extension argument: `None` becomes the literal
star, otherwise leading stars are stripped and a dot is prepended when
missing; the glob pattern is `os.path.join(path, '*' + ext)`; a
non-directory path short-circuits to the empty list. The filesystem is
abstracted by an `isDir` predicate and a `globFn` oracle mapping a pattern
to the matching files. -/

/-- Extension normalisation from listFiles: `ext.lstrip(star)` then prepend
a dot when the result does not start with one. -/
def normExt (e : List Char) : List Char :=
  let e1 := e.dropWhile (fun c => c = '*')
  if e1.head? = some '.' then e1 else '.' :: e1

/-- Model of CPython posixpath.join for two components. -/
def posixJoin (a b : List Char) : List Char :=
  if b.head? = some '/' then b
  else if a = [] ∨ a.getLast? = some '/' then a ++ b
  else a ++ '/' :: b

/-- The glob pattern listFiles builds: `os.path.join(path, '*' + ext)`
after normalisation (the `None` case yields the star as the extension). -/
def listFilesPattern (path : List Char) (ext : Option (List Char)) : List Char :=
  let e := match ext with
    | none => ['*']
    | some s => normExt s
  posixJoin path ('*' :: e)

/-- Model of listFiles over an abstract filesystem: empty list for a
non-directory path, otherwise the glob result for the built pattern. -/
def listFiles (isDir : List Char → Bool) (globFn : List Char → List (List Char))
    (path : List Char) (ext : Option (List Char)) : List (List Char) :=
  if ¬ isDir path then [] else globFn (listFilesPattern path ext)

/-! ## getMp3Metadata (ccfx.py lines 72-124), claim C8

When the TIT2 frame is absent (and likewise in the exception fallback) the
title defaults to `os.path.basename(fn).replace(mp3ext, empty)` — Python
str.replace, which removes every non-overlapping occurrence left to right. -/

/-- Model of Python str.replace(old, new) for a non-empty `old`:
left-to-right replacement of every non-overlapping occurrence. -/
def pyReplace (old new : List Char) : List Char → List Char
  | [] => []
  | c :: rest =>
    if old ≠ [] ∧ old.isPrefixOf (c :: rest) then
      new ++ pyReplace old new ((c :: rest).drop old.length)
    else
      c :: pyReplace old new rest
termination_by l => l.length
decreasing_by
  · simp only [List.length_drop, List.length_cons]
    have hne : old ≠ [] := by
      rename_i h
      exact h.1
    have : 1 ≤ old.length := by
      cases old with
      | nil => exact absurd rfl hne
      | cons x xs => simp
    omega
  · simp

/-- The literal extension string used by getMp3Metadata's replace call. -/
def mp3Ext : List Char := ['.', 'm', 'p', '3']

/-- Default title computed by getMp3Metadata when TIT2 is missing or tag
parsing fails: the base name with every occurrence of `.mp3` removed. -/
def defaultMp3Title (fn : List Char) : List Char :=
  pyReplace mp3Ext [] (pyBasename fn)

/-- What the claim asserts the default title is: the base name without its
extension (os.path.splitext root of the base name). -/
def claimedMp3Title (fn : List Char) : List Char :=
  splitextRoot (pyBasename fn)

/-! ## deletePath (ccfx.py lines 279-301), claim C2

The source sets a local `deleted` flag in each branch but has no `return`
statement: the function always falls off the end and returns Python `None`.
The filesystem is abstracted as the list of existing paths plus the list of
paths `shutil.rmtree` succeeds on; the bare `except` swallows failures. -/

/-- A Python return value that is either None or a boolean. -/
inductive PyRet where
  | none : PyRet
  | bool : Bool → PyRet
deriving DecidableEq, Repr

/-- Abstract filesystem for deletePath: which paths exist and which can be
removed by rmtree. -/
structure DelFS where
  existing : List (List Char)
  removable : List (List Char)
deriving DecidableEq, Repr

/-- Model of deletePath: mirrors the source control flow (exists check,
rmtree guarded by a bare except, verbose prints dropped) and, like the
source, ends without a return statement, so the returned value is None. -/
def deletePath (fs : DelFS) (path : List Char) : PyRet × DelFS :=
  if path ∈ fs.existing then
    if path ∈ fs.removable then
      (PyRet.none, ⟨fs.existing.filter (fun q => q ≠ path), fs.removable⟩)
    else
      (PyRet.none, fs)
  else
    (PyRet.none, fs)

/-! ## netcdfExportTif (ccfx.py line 1000), claim C6

The source builds the GDAL access string with an f-string that carries a
stray trailing double quote after the variable name. -/

/-- The access string the source builds (ccfx.py line 1000), including the
trailing stray quote present in the f-string. -/
def netcdfInputString (ncFile varName : List Char) : List Char :=
  ['N', 'E', 'T', 'C', 'D', 'F', ':', '"'] ++ ncFile ++ ['"', ':'] ++ varName ++ ['"']

/-- The access string the claim (and GDAL's documented syntax) prescribes:
NETCDF:, opening quote, file, closing quote, colon, variable, nothing after. -/
def claimedNetcdfInputString (ncFile varName : List Char) : List Char :=
  ['N', 'E', 'T', 'C', 'D', 'F', ':', '"'] ++ ncFile ++ ['"', ':'] ++ varName

/-! ## insertRow positional branch (sqliteConnection.py lines 252-255), claim C9

Python values bound to sqlite are modelled as `Option V` (`none` = Python
None). The source computes a placeholder with a conditional whose two arms
are both the question mark, and a value list with a conditional mapping
None to None and everything else to itself. -/

/-- The placeholder token list the source computes: one question mark per
entry, via the two-armed conditional of line 253. -/
def valuesPlaceholder {V : Type} (vals : List (Option V)) : List (List Char) :=
  vals.map (fun v => match v with
    | none => ['?']
    | some _ => ['?'])

/-- The bound value list the source computes via the conditional of
line 254: None maps to None, anything else to itself. -/
def transformedValues {V : Type} (vals : List (Option V)) : List (Option V) :=
  vals.map (fun v => match v with
    | none => none
    | some x => some x)

/-- The placeholder obtained by binding the raw list directly: one question
mark per entry with no per-value case analysis. -/
def directPlaceholder {V : Type} (vals : List (Option V)) : List (List Char) :=
  vals.map (fun _ => ['?'])

/-- The SQL text of the positional insert: INSERT INTO, table name, VALUES,
and the comma-joined placeholders. -/
def insertRowSQL (table : List Char) (placeholders : List (List Char)) : List Char :=
  ['I', 'N', 'S', 'E', 'R', 'T', ' ', 'I', 'N', 'T', 'O', ' '] ++ table ++
    [' ', 'V', 'A', 'L', 'U', 'E', 'S', '('] ++ (List.intercalate [','] placeholders) ++ [')']

/-! ## createGrid (ccfx.py lines 929-935), claim C3

The grid GeoDataFrame `grid_gdf` keeps the working CRS of the boundary
layer; `reprojectedGrid` is its EPSG:4326 reprojection. The source then
writes `grid_gdf` to generatedGrid4326.gpkg and `reprojectedGrid` to
generatedGrid.gpkg — in that order, both in the current directory. Only
the file-name-to-CRS pairing is modelled. -/

/-- One persisted grid file: its file name and the CRS of the data written
into it. -/
structure GridWrite where
  filename : String
  dataCrs : String
deriving DecidableEq, Repr

/-- The two writes createGrid performs, in source order (ccfx.py lines
932-933): the working-CRS grid to generatedGrid4326.gpkg and the EPSG:4326
reprojection to generatedGrid.gpkg. -/
def createGridWrites (workingCrs : String) : List GridWrite :=
  [⟨"generatedGrid4326.gpkg", workingCrs⟩, ⟨"generatedGrid.gpkg", "EPSG:4326"⟩]

/-- The CRS of the data createGrid writes to a given file name, if any. -/
def crsWrittenTo (workingCrs fname : String) : Option String :=
  ((createGridWrites workingCrs).find? (fun g => g.filename == fname)).map GridWrite.dataCrs

/-! ## writeTo and createPath (ccfx.py lines 567-584 and 592-608), claim C5

The source opens the destination file before calling createPath on its
directory; the open is wrapped in a try/except that returns False. The
filesystem is abstracted as the list of existing directories (canonical
names, no trailing slash); a file can be opened for writing exactly when
its containing directory exists (the empty dirname meaning the current
directory). -/

/-- Outcome of writeTo: the returned boolean, the directories existing
afterwards, and the lines written (none when nothing was written). -/
structure WriteResult where
  success : Bool
  dirsAfter : List (List Char)
  written : Option (List (List Char))
deriving DecidableEq, Repr

/-- Model of createPath: empty input returns unchanged; otherwise one
trailing backslash is stripped, the name is canonicalised (the source
appends a slash before makedirs; we store the slash-free canonical name)
and the directory is created when absent. -/
def createPath (dirs : List (List Char)) (pathName : List Char) : List (List Char) :=
  if pathName = [] then dirs
  else
    let p1 := if pathName.getLast? = some '\\' then pathName.dropLast else pathName
    let d := if p1.getLast? = some '/' then p1.dropLast else p1
    if d ∈ dirs then dirs else d :: dirs

/-- Model of writeTo: the open happens first, so when the containing
directory of the destination is missing the except branch returns False
with nothing created and nothing written; only on a successful open does
createPath run (a no-op then) and the lines get written. -/
def writeTo (dirs : List (List Char)) (filename : List Char)
    (fileText : List (List Char)) : WriteResult :=
  let parent := pyDirname filename
  if parent = [] ∨ parent ∈ dirs then
    ⟨true, createPath dirs parent, some fileText⟩
  else
    ⟨false, dirs, none⟩

/-! ## downloadFile target path (ccfx.py lines 312-343 and 1021-1031), claim C10

The source computes `fname = getFileBaseName(url, extension=True)` and
`save_fname = save_dir + slash + fname` with `save_dir =
os.path.dirname(save_path)`; every existence check and the final merge use
`save_fname`, never `save_path` itself. -/

/-- Model of getFileBaseName: the base name, with the extension kept or
stripped according to the flag. -/
def getFileBaseName (filePath : List Char) (extension : Bool) : List Char :=
  if extension then pyBasename filePath else splitextRoot (pyBasename filePath)

/-- The file path downloadFile actually writes to (and checks the
existing-file policy against): dirname of the caller's save path joined
with the base name of the URL. -/
def downloadSaveFname (url savePath : List Char) : List Char :=
  pyDirname savePath ++ '/' :: getFileBaseName url true

/-! ## downloadFile chunk ranges (ccfx.py lines 345-351), claim C4

chunk_size is the ceiling of remaining bytes over the connection count;
chunk i spans from initial_pos + i * chunk_size to the minimum of the next
start minus one and file_size - 1. -/

/-- Model of `math.ceil((file_size - initial_pos) / num_connections)`:
exact ceiling division over naturals. -/
def chunkSize (fileSize initialPos numConnections : ℕ) : ℕ :=
  (fileSize - initialPos + numConnections - 1) / numConnections

/-- Start byte of chunk i: `initial_pos + (i * chunk_size)`. -/
def chunkStart (L p n i : ℕ) : ℕ := p + i * chunkSize L p n

/-- End byte of chunk i: `min(start + chunk_size - 1, file_size - 1)`. -/
def chunkEnd (L p n i : ℕ) : ℕ :=
  min (chunkStart L p n i + chunkSize L p n - 1) (L - 1)

/-- The chunk list the source builds: one (start, end) pair per connection
index in `range(num_connections)`. -/
def chunks (L p n : ℕ) : List (ℕ × ℕ) :=
  (List.range n).map (fun i => (chunkStart L p n i, chunkEnd L p n i))

/-! ## calculateTimeseriesStats NSE (ccfx.py lines 1381-1393), claim C1

Rows where either series is NaN are masked out first; with no valid rows
the function raises; otherwise NSE is 1 minus the sum of squared
differences over the sum of squared deviations of the observed values from
their mean, and NaN when that denominator is zero. NaN inputs are
`Option.none`, floats are exact rationals, the NaN result is `none`, the
raise is `Except.error`. -/

/-- The rows surviving the NaN mask: pairs where both the observed and the
simulated entry are present. -/
def validPairs (obs sim : List (Option ℚ)) : List (ℚ × ℚ) :=
  (obs.zip sim).filterMap (fun pr => match pr with
    | (some o, some s) => some (o, s)
    | _ => none)

/-- The NSE computation of lines 1392-1393 on the masked rows: the variance
denominator, then 1 - sum of squared errors over it, or NaN (none) when the
denominator is zero. -/
def nseOfPairs (pairs : List (ℚ × ℚ)) : Option ℚ :=
  let os := pairs.map Prod.fst
  let obsMean := os.sum / (os.length : ℚ)
  let denominator := (os.map (fun o => (o - obsMean) ^ 2)).sum
  if denominator ≠ 0 then
    some (1 - (pairs.map (fun pr => (pr.1 - pr.2) ^ 2)).sum / denominator)
  else
    none

/-- The NSE path of calculateTimeseriesStats: raise (error) when no valid
rows remain after masking, otherwise the NSE value of the masked rows. -/
def calculateNSE (obs sim : List (Option ℚ)) : Except String (Option ℚ) :=
  if (validPairs obs sim).length = 0 then
    Except.error "No valid data points after removing NaN values"
  else
    Except.ok (nseOfPairs (validPairs obs sim))

end Ccfx

namespace Ccfx

/-! ## Theorems for claims C2, C6, C7, C9 -/

/-- Claim C2 (code bug evidence): deletePath never returns a boolean. For
every filesystem and path — in particular for an existing, removable
directory, where the claim requires True — the returned value is Python
None, because the source lacks a return statement. -/
theorem deletePath_returns_none (fs : DelFS) (path : List Char) :
    (deletePath fs path).1 = PyRet.none := by
  unfold deletePath
  split <;> [skip; rfl]
  split <;> rfl

/-- Witness for deletePath_returns_none: at the concrete existing,
removable directory "/tmp/d" the call removes the directory yet returns
None rather than the boolean True that the claim requires. -/
theorem deletePath_returns_none_witness :
    (deletePath ⟨[['/', 't', 'm', 'p', '/', 'd']], [['/', 't', 'm', 'p', '/', 'd']]⟩
      ['/', 't', 'm', 'p', '/', 'd']).1 = PyRet.none ∧
    PyRet.none ≠ PyRet.bool true := by
  refine ⟨deletePath_returns_none _ _, by decide⟩

/-- Claim C6 (code bug evidence): the access string the source passes to
GDAL is the claimed string with an extra trailing double quote, hence never
equal to the claimed form, for every file path and variable name. -/
theorem netcdfInputString_has_stray_quote (ncFile varName : List Char) :
    netcdfInputString ncFile varName = claimedNetcdfInputString ncFile varName ++ ['\x22'] ∧
    netcdfInputString ncFile varName ≠ claimedNetcdfInputString ncFile varName := by
  constructor
  · simp [netcdfInputString, claimedNetcdfInputString]
  · intro h
    have hlen := congrArg List.length h
    simp [netcdfInputString, claimedNetcdfInputString] at hlen

/-- Witness for netcdfInputString_has_stray_quote at the concrete file
"a.nc" and variable "pr". -/
theorem netcdfInputString_has_stray_quote_witness :
    netcdfInputString ['a', '.', 'n', 'c'] ['p', 'r'] =
      claimedNetcdfInputString ['a', '.', 'n', 'c'] ['p', 'r'] ++ ['\x22'] ∧
    netcdfInputString ['a', '.', 'n', 'c'] ['p', 'r'] ≠
      claimedNetcdfInputString ['a', '.', 'n', 'c'] ['p', 'r'] :=
  netcdfInputString_has_stray_quote ['a', '.', 'n', 'c'] ['p', 'r']

/-- Normalisation helper: when the extension stem starts with neither a dot
nor a star, all four spellings normalise to dot-prefixed stem. -/
theorem normExt_of_stem (e : List Char) (hdot : e.head? ≠ some '.')
    (hstar : e.head? ≠ some '*') :
    normExt e = '.' :: e ∧ normExt ('.' :: e) = '.' :: e ∧
    normExt ('*' :: e) = '.' :: e ∧ normExt ('*' :: '.' :: e) = '.' :: e := by
  have hdrop : e.dropWhile (fun c => c = '*') = e := by
    cases e with
    | nil => rfl
    | cons c cs =>
      simp only [List.head?_cons, ne_eq, Option.some.injEq] at hstar
      simp [List.dropWhile_cons, hstar]
  have hhead : ∀ l : List Char, l = e → l.head? ≠ some '.' := by
    intro l hl
    rw [hl]; exact hdot
  refine ⟨?_, ?_, ?_, ?_⟩
  · unfold normExt
    rw [hdrop]
    simp [hhead e rfl]
  · unfold normExt
    have : ('.' :: e).dropWhile (fun c => c = '*') = '.' :: e := by
      simp [List.dropWhile_cons]
    rw [this]
    simp
  · unfold normExt
    have : ('*' :: e).dropWhile (fun c => c = '*') = e := by
      simp [List.dropWhile_cons, hdrop]
    rw [this]
    simp [hhead e rfl]
  · unfold normExt
    have : ('*' :: '.' :: e).dropWhile (fun c => c = '*') = '.' :: e := by
      simp [List.dropWhile_cons]
    rw [this]
    simp

/-- Claim C7: for every directory oracle, glob oracle, path and extension
stem that starts with neither a dot nor a star, the four spellings stem,
dot-stem, star-stem and star-dot-stem give the identical listFiles result
(indeed the identical glob pattern), and a non-directory path yields the
empty list. -/
theorem listFiles_ext_spellings (isDir : List Char → Bool)
    (globFn : List Char → List (List Char)) (path e : List Char)
    (hdot : e.head? ≠ some '.') (hstar : e.head? ≠ some '*') :
    (listFilesPattern path (some e) = listFilesPattern path (some ('.' :: e)) ∧
     listFilesPattern path (some e) = listFilesPattern path (some ('*' :: e)) ∧
     listFilesPattern path (some e) = listFilesPattern path (some ('*' :: '.' :: e))) ∧
    (listFiles isDir globFn path (some e) = listFiles isDir globFn path (some ('.' :: e)) ∧
     listFiles isDir globFn path (some e) = listFiles isDir globFn path (some ('*' :: e)) ∧
     listFiles isDir globFn path (some e) = listFiles isDir globFn path (some ('*' :: '.' :: e))) ∧
    (¬ isDir path → listFiles isDir globFn path (some e) = []) := by
  obtain ⟨h1, h2, h3, h4⟩ := normExt_of_stem e hdot hstar
  have hp1 : listFilesPattern path (some e) = listFilesPattern path (some ('.' :: e)) := by
    simp [listFilesPattern, h1, h2]
  have hp2 : listFilesPattern path (some e) = listFilesPattern path (some ('*' :: e)) := by
    simp [listFilesPattern, h1, h3]
  have hp3 : listFilesPattern path (some e) = listFilesPattern path (some ('*' :: '.' :: e)) := by
    simp [listFilesPattern, h1, h4]
  refine ⟨⟨hp1, hp2, hp3⟩, ⟨?_, ?_, ?_⟩, ?_⟩
  · simp [listFiles, hp1]
  · simp [listFiles, hp2]
  · simp [listFiles, hp3]
  · intro h
    simp [listFiles, h]

/-- Witness for listFiles_ext_spellings: at the stem "txt" and path "d",
with a directory oracle accepting everything and a glob oracle echoing the
pattern, all four spellings agree. -/
theorem listFiles_ext_spellings_witness :
    (listFilesPattern ['d'] (some ['t', 'x', 't']) =
      listFilesPattern ['d'] (some ['.', 't', 'x', 't']) ∧
     listFilesPattern ['d'] (some ['t', 'x', 't']) =
      listFilesPattern ['d'] (some ['*', 't', 'x', 't']) ∧
     listFilesPattern ['d'] (some ['t', 'x', 't']) =
      listFilesPattern ['d'] (some ['*', '.', 't', 'x', 't'])) ∧
    (listFiles (fun _ => true) (fun p => [p]) ['d'] (some ['t', 'x', 't']) =
      listFiles (fun _ => true) (fun p => [p]) ['d'] (some ['.', 't', 'x', 't']) ∧
     listFiles (fun _ => true) (fun p => [p]) ['d'] (some ['t', 'x', 't']) =
      listFiles (fun _ => true) (fun p => [p]) ['d'] (some ['*', 't', 'x', 't']) ∧
     listFiles (fun _ => true) (fun p => [p]) ['d'] (some ['t', 'x', 't']) =
      listFiles (fun _ => true) (fun p => [p]) ['d'] (some ['*', '.', 't', 'x', 't'])) ∧
    (¬ (fun (_ : List Char) => true) ['d'] →
      listFiles (fun _ => true) (fun p => [p]) ['d'] (some ['t', 'x', 't']) = []) :=
  listFiles_ext_spellings (fun _ => true) (fun p => [p]) ['d'] ['t', 'x', 't']
    (by decide) (by decide)

/-- Claim C9: the positional insert's None-handling is the identity — the
placeholder list, the full SQL text and the bound value list are exactly
those obtained by binding the raw input list directly. -/
theorem insertRow_none_handling_identity {V : Type} (table : List Char)
    (vals : List (Option V)) :
    valuesPlaceholder vals = directPlaceholder vals ∧
    insertRowSQL table (valuesPlaceholder vals) = insertRowSQL table (directPlaceholder vals) ∧
    transformedValues vals = vals := by
  have hp : valuesPlaceholder vals = directPlaceholder vals := by
    unfold valuesPlaceholder directPlaceholder
    apply List.map_congr_left
    intro v _
    cases v <;> rfl
  refine ⟨hp, by rw [hp], ?_⟩
  unfold transformedValues
  have : ∀ v : Option V, (match v with | none => none | some x => some x) = v := by
    intro v; cases v <;> rfl
  simp [this]

/-- Claim C3 (code bug evidence): for every working CRS other than
EPSG:4326, the file generatedGrid.gpkg receives the EPSG:4326 reprojection
(not the working-CRS grid the claim prescribes) and generatedGrid4326.gpkg
receives the working-CRS grid: the two names are swapped in the source. -/
theorem createGrid_files_swapped (w : String) (hw : w ≠ "EPSG:4326") :
    createGridWrites w =
      [⟨"generatedGrid4326.gpkg", w⟩, ⟨"generatedGrid.gpkg", "EPSG:4326"⟩] ∧
    crsWrittenTo w "generatedGrid4326.gpkg" = some w ∧
    crsWrittenTo w "generatedGrid.gpkg" = some "EPSG:4326" ∧
    crsWrittenTo w "generatedGrid.gpkg" ≠ some w := by
  have h1 : crsWrittenTo w "generatedGrid4326.gpkg" = some w := by
    unfold crsWrittenTo createGridWrites
    rw [List.find?_cons_of_pos _ (by simp)]
    rfl
  have h2 : crsWrittenTo w "generatedGrid.gpkg" = some "EPSG:4326" := by
    unfold crsWrittenTo createGridWrites
    rw [List.find?_cons_of_neg _ (by simp), List.find?_cons_of_pos _ (by simp)]
    rfl
  refine ⟨rfl, h1, h2, ?_⟩
  rw [h2]
  intro hcontra
  exact hw (Option.some.injEq _ _ ▸ hcontra).symm

/-- Witness for createGrid_files_swapped: with the concrete working CRS
EPSG:3857, generatedGrid.gpkg receives the EPSG:4326 data and
generatedGrid4326.gpkg the EPSG:3857 data. -/
theorem createGrid_files_swapped_witness :
    createGridWrites "EPSG:3857" =
      [⟨"generatedGrid4326.gpkg", "EPSG:3857"⟩, ⟨"generatedGrid.gpkg", "EPSG:4326"⟩] ∧
    crsWrittenTo "EPSG:3857" "generatedGrid4326.gpkg" = some "EPSG:3857" ∧
    crsWrittenTo "EPSG:3857" "generatedGrid.gpkg" = some "EPSG:4326" ∧
    crsWrittenTo "EPSG:3857" "generatedGrid.gpkg" ≠ some "EPSG:3857" :=
  createGrid_files_swapped "EPSG:3857" (by decide)

/-- Claim C5 (code bug evidence): whenever the destination's parent
directory is nonempty and does not exist, writeTo fails at the open that
precedes the createPath call: it returns False, creates no directory and
writes nothing — the claim requires the directory to be created first,
the lines written and True returned. -/
theorem writeTo_missing_parent_fails (dirs : List (List Char)) (filename : List Char)
    (fileText : List (List Char)) (hne : pyDirname filename ≠ [])
    (hmem : pyDirname filename ∉ dirs) :
    writeTo dirs filename fileText = ⟨false, dirs, none⟩ := by
  unfold writeTo
  simp [hne, hmem]

/-- Witness for writeTo_missing_parent_fails: writing to newdir/f.txt on a
filesystem with no directories returns False with nothing created and
nothing written. -/
theorem writeTo_missing_parent_fails_witness :
    pyDirname ['n', 'e', 'w', 'd', 'i', 'r', '/', 'f', '.', 't', 'x', 't'] ≠ [] ∧
    writeTo [] ['n', 'e', 'w', 'd', 'i', 'r', '/', 'f', '.', 't', 'x', 't'] [] =
      ⟨false, [], none⟩ :=
  ⟨by decide,
   writeTo_missing_parent_fails [] ['n', 'e', 'w', 'd', 'i', 'r', '/', 'f', '.', 't', 'x', 't']
     [] (by decide) (by decide)⟩

/-- Helper: takeWhile over a list whose prefix wholly satisfies the
predicate, followed by a failing element, returns exactly that prefix. -/
theorem takeWhile_all_append {α : Type} (p : α → Bool) (xs ys : List α) (y : α)
    (hxs : ∀ x ∈ xs, p x) (hy : ¬ p y) :
    (xs ++ y :: ys).takeWhile p = xs := by
  induction xs with
  | nil => simp [List.takeWhile_cons, hy]
  | cons a as ih =>
    have ha : p a = true := hxs a (by simp)
    simp only [List.cons_append, List.takeWhile_cons, ha, if_true]
    rw [ih (fun x hx => hxs x (by simp [hx]))]

/-- Helper: a basename never contains a slash. -/
theorem slash_not_mem_pyBasename (q : List Char) : '/' ∉ pyBasename q := by
  intro h
  unfold pyBasename at h
  rw [List.mem_reverse] at h
  have := List.mem_takeWhile_imp h
  simp at this

/-- Helper: the basename of a directory part joined with a slash-free name
is that name. -/
theorem pyBasename_append_slash (d b : List Char) (hb : '/' ∉ b) :
    pyBasename (d ++ '/' :: b) = b := by
  unfold pyBasename
  have hrev : (d ++ '/' :: b).reverse = b.reverse ++ '/' :: d.reverse := by
    simp
  rw [hrev, takeWhile_all_append _ _ _ _ ?_ ?_, List.reverse_reverse]
  · intro x hx
    simp only [List.mem_reverse] at hx
    simp only [ne_eq, decide_eq_true_eq]
    intro hxe
    exact hb (hxe ▸ hx)
  · simp

/-- Claim C10: downloadFile writes to the file named by the URL's base name
inside the destination path's parent directory; whenever the destination's
base name differs from the URL's, the resulting path differs from the
caller-supplied destination, whose file name is thus silently ignored (the
existing-file policy is checked against this same URL-derived path). -/
theorem downloadFile_uses_url_basename (url savePath : List Char)
    (h : pyBasename savePath ≠ pyBasename url) :
    downloadSaveFname url savePath = pyDirname savePath ++ '/' :: pyBasename url ∧
    pyBasename (downloadSaveFname url savePath) = pyBasename url ∧
    downloadSaveFname url savePath ≠ savePath := by
  have h1 : downloadSaveFname url savePath = pyDirname savePath ++ '/' :: pyBasename url := rfl
  have h2 : pyBasename (downloadSaveFname url savePath) = pyBasename url := by
    rw [h1]
    exact pyBasename_append_slash _ _ (slash_not_mem_pyBasename url)
  refine ⟨h1, h2, ?_⟩
  intro he
  apply h
  rw [← he, h2]

/-- Witness for downloadFile_uses_url_basename: the URL u/y and the
destination path d/z have different base names, and the download lands at
d/y, not at the caller's d/z. -/
theorem downloadFile_uses_url_basename_witness :
    pyBasename ['d', '/', 'z'] ≠ pyBasename ['u', '/', 'y'] ∧
    (downloadSaveFname ['u', '/', 'y'] ['d', '/', 'z'] =
      pyDirname ['d', '/', 'z'] ++ '/' :: pyBasename ['u', '/', 'y'] ∧
     pyBasename (downloadSaveFname ['u', '/', 'y'] ['d', '/', 'z']) =
      pyBasename ['u', '/', 'y'] ∧
     downloadSaveFname ['u', '/', 'y'] ['d', '/', 'z'] ≠ ['d', '/', 'z']) :=
  ⟨by decide, downloadFile_uses_url_basename ['u', '/', 'y'] ['d', '/', 'z'] (by decide)⟩

/-- Helper: pyReplace of the empty list is the empty list. -/
theorem pyReplace_nil (old new : List Char) : pyReplace old new [] = [] := by
  simp [pyReplace]

/-- Helper: when the pattern occurs in stem ++ pattern only as the final
suffix, replacing it by the empty string leaves exactly the stem. -/
theorem pyReplace_stem_append (old : List Char) (hold : old ≠ []) :
    ∀ stem : List Char,
      (∀ i, i < stem.length → old.isPrefixOf ((stem ++ old).drop i) = false) →
      pyReplace old [] (stem ++ old) = stem := by
  intro stem
  induction stem with
  | nil =>
    intro _
    rw [List.nil_append]
    cases old with
    | nil => exact absurd rfl hold
    | cons c rest =>
      rw [pyReplace]
      rw [if_pos ⟨hold, List.isPrefixOf_iff_prefix.mpr (List.prefix_refl _)⟩]
      simp [pyReplace_nil]
  | cons c s ih =>
    intro hocc
    have h0 : old.isPrefixOf (c :: (s ++ old)) = false := by
      have := hocc 0 (by simp)
      simpa using this
    rw [List.cons_append, pyReplace]
    rw [if_neg (by simp [h0])]
    congr 1
    apply ih
    intro i hi
    have := hocc (i + 1) (by simp only [List.length_cons]; omega)
    simpa using this

/-- Helper: a path containing no slash is its own basename. -/
theorem pyBasename_of_no_slash (p : List Char) (h : '/' ∉ p) : pyBasename p = p := by
  unfold pyBasename
  rw [List.takeWhile_eq_self_iff.mpr ?_, List.reverse_reverse]
  intro x hx
  rw [List.mem_reverse] at hx
  simp only [ne_eq, decide_eq_true_eq]
  intro he
  exact h (he ▸ hx)

/-- Helper: splitext of stem ++ .mp3 returns the stem whenever the stem is
not made of dots only. -/
theorem splitextRoot_stem_mp3 (stem : List Char)
    (hnd : stem.all (fun c => c = '.') = false) :
    splitextRoot (stem ++ mp3Ext) = stem := by
  have hrev : ((stem ++ mp3Ext).reverse).dropWhile (fun c => c ≠ '.') =
      '.' :: stem.reverse := by
    rw [List.reverse_append]
    show List.dropWhile _ ('3' :: 'p' :: 'm' :: '.' :: stem.reverse) = _
    simp [List.dropWhile_cons]
  unfold splitextRoot
  simp only [hrev, List.reverse_cons, List.reverse_reverse]
  rw [if_neg (by simp)]
  rw [List.dropLast_concat]
  rw [if_neg (by simp [hnd])]

/-- Claim C8 counterexample: for the file a.mp3.mp3 the computed default
title is a (every occurrence of .mp3 removed) while the base name without
its extension is a.mp3 — the claim as stated fails. -/
theorem mp3_default_title_counterexample :
    defaultMp3Title ['a', '.', 'm', 'p', '3', '.', 'm', 'p', '3'] = ['a'] ∧
    claimedMp3Title ['a', '.', 'm', 'p', '3', '.', 'm', 'p', '3'] =
      ['a', '.', 'm', 'p', '3'] ∧
    defaultMp3Title ['a', '.', 'm', 'p', '3', '.', 'm', 'p', '3'] ≠
      claimedMp3Title ['a', '.', 'm', 'p', '3', '.', 'm', 'p', '3'] := by
  have h1 : defaultMp3Title ['a', '.', 'm', 'p', '3', '.', 'm', 'p', '3'] = ['a'] := by
    unfold defaultMp3Title
    have hb : pyBasename ['a', '.', 'm', 'p', '3', '.', 'm', 'p', '3'] =
        ['a', '.', 'm', 'p', '3', '.', 'm', 'p', '3'] := by decide
    rw [hb]
    simp [pyReplace, mp3Ext, List.isPrefixOf]
  have h2 : claimedMp3Title ['a', '.', 'm', 'p', '3', '.', 'm', 'p', '3'] =
      ['a', '.', 'm', 'p', '3'] := by decide
  refine ⟨h1, h2, ?_⟩
  rw [h1, h2]
  decide

/-- Claim C8 amended: when the base name consists of a stem followed by the
final .mp3 extension and .mp3 occurs nowhere else in it (and the stem is
slash-free and not made of dots only), the default title equals the stem,
which is exactly the base name without its extension. -/
theorem mp3_default_title_amended (stem : List Char)
    (hocc : ∀ i, i < stem.length → mp3Ext.isPrefixOf ((stem ++ mp3Ext).drop i) = false)
    (hslash : '/' ∉ stem)
    (hnd : stem.all (fun c => c = '.') = false) :
    defaultMp3Title (stem ++ mp3Ext) = stem ∧
    claimedMp3Title (stem ++ mp3Ext) = stem := by
  have hsl : '/' ∉ stem ++ mp3Ext := by
    intro h
    rcases List.mem_append.mp h with h | h
    · exact hslash h
    · simp [mp3Ext] at h
  have hbase : pyBasename (stem ++ mp3Ext) = stem ++ mp3Ext :=
    pyBasename_of_no_slash _ hsl
  constructor
  · unfold defaultMp3Title
    rw [hbase]
    exact pyReplace_stem_append mp3Ext (by decide) stem hocc
  · unfold claimedMp3Title
    rw [hbase]
    exact splitextRoot_stem_mp3 stem hnd

/-- Witness for mp3_default_title_amended at the concrete file song.mp3:
the default title and the extensionless base name are both song. -/
theorem mp3_default_title_amended_witness :
    (∀ i, i < (['s', 'o', 'n', 'g'] : List Char).length →
      mp3Ext.isPrefixOf (((['s', 'o', 'n', 'g'] : List Char) ++ mp3Ext).drop i) = false) ∧
    '/' ∉ (['s', 'o', 'n', 'g'] : List Char) ∧
    (['s', 'o', 'n', 'g'] : List Char).all (fun c => c = '.') = false ∧
    (defaultMp3Title ((['s', 'o', 'n', 'g'] : List Char) ++ mp3Ext) = ['s', 'o', 'n', 'g'] ∧
     claimedMp3Title ((['s', 'o', 'n', 'g'] : List Char) ++ mp3Ext) = ['s', 'o', 'n', 'g']) :=
  ⟨by decide, by decide, by decide,
   mp3_default_title_amended ['s', 'o', 'n', 'g'] (by decide) (by decide) (by decide)⟩

/-- Claim C4 counterexample: for content length 7, resume offset 0 and 5
connections the computed ranges are (0,1), (2,3), (4,5), (6,6), (8,6): the
fifth chunk starts at 8 while the fourth ends at 6, so the ranges are not
consecutive as the claim states (the last chunk is empty and skips byte 7,
which does not exist). -/
theorem chunks_not_consecutive_counterexample :
    chunks 7 0 5 = [(0, 1), (2, 3), (4, 5), (6, 6), (8, 6)] ∧
    chunkStart 7 0 5 4 ≠ chunkEnd 7 0 5 3 + 1 := by
  decide

/-- Claim C4 amended: for every content length, resume offset strictly
below it and connection count at least 1, the first chunk starts at the
resume offset, the chunk intervals are pairwise disjoint, together they
cover exactly the remaining bytes up to content length minus one (an even
split of size ceil(remaining/connections)), and each chunk whose start
still lies within the file begins right after the previous chunk's end;
chunks past the end of the file are empty rather than consecutive. -/
theorem downloadChunks_partition (L p n : ℕ) (hp : p < L) (hn : 1 ≤ n) :
    chunkStart L p n 0 = p ∧
    (∀ i j, i < j → j < n → chunkEnd L p n i < chunkStart L p n j) ∧
    (∀ b, (p ≤ b ∧ b < L) ↔ ∃ i, i < n ∧ chunkStart L p n i ≤ b ∧ b ≤ chunkEnd L p n i) ∧
    (∀ i, i + 1 < n → chunkStart L p n (i + 1) ≤ L - 1 →
      chunkStart L p n (i + 1) = chunkEnd L p n i + 1) := by
  have hn0 : 0 < n := hn
  have hr : 1 ≤ L - p := by omega
  set c := chunkSize L p n with hcdef
  have hc1 : 1 ≤ c := by
    rw [hcdef]
    unfold chunkSize
    rw [Nat.le_div_iff_mul_le hn0]
    omega
  have hcov : L - p ≤ n * c := by
    rw [hcdef]
    unfold chunkSize
    have hdm := Nat.div_add_mod (L - p + n - 1) n
    have hmod := Nat.mod_lt (L - p + n - 1) hn0
    omega
  have hsdef : ∀ k, chunkStart L p n k = p + k * c := fun k => rfl
  have hedef : ∀ k, chunkEnd L p n k = min (p + k * c + c - 1) (L - 1) := fun k => rfl
  refine ⟨by simp [hsdef], ?_, ?_, ?_⟩
  · intro i j hij hjn
    rw [hsdef j, hedef i]
    calc min (p + i * c + c - 1) (L - 1) ≤ p + i * c + c - 1 := Nat.min_le_left _ _
      _ < p + i * c + c := Nat.sub_lt (Nat.add_pos_right _ hc1) Nat.one_pos
      _ = p + (i + 1) * c := by ring
      _ ≤ p + j * c := Nat.add_le_add_left (Nat.mul_le_mul_right c hij) p
  · intro b
    constructor
    · rintro ⟨hpb, hbL⟩
      refine ⟨(b - p) / c, ?_, ?_, ?_⟩
      · apply (Nat.div_lt_iff_lt_mul hc1).mpr
        omega
      · rw [hsdef]
        have := Nat.div_mul_le_self (b - p) c
        omega
      · rw [hedef]
        have hdm := Nat.div_add_mod (b - p) c
        have hmod := Nat.mod_lt (b - p) hc1
        have hexp2 : ((b - p) / c + 1) * c = (b - p) / c * c + c := by ring
        have hexp : ((b - p) / c + 1) * c = c * ((b - p) / c) + c := by ring
        omega
    · rintro ⟨i, hin, h1, h2⟩
      rw [hsdef] at h1
      rw [hedef] at h2
      constructor
      · omega
      · have := Nat.min_le_right (p + i * c + c - 1) (L - 1)
        omega
  · intro i hi1 hile
    rw [hsdef] at hile ⊢
    rw [hedef]
    have heq : p + (i + 1) * c = p + i * c + c := by ring
    have h1 : p + i * c + c - 1 ≤ L - 1 := by omega
    rw [Nat.min_eq_left h1]
    omega

/-- Witness for downloadChunks_partition at content length 7, offset 0 and
5 connections. -/
theorem downloadChunks_partition_witness :
    (0 < 7 ∧ 1 ≤ 5) ∧
    (chunkStart 7 0 5 0 = 0 ∧
     (∀ i j, i < j → j < 5 → chunkEnd 7 0 5 i < chunkStart 7 0 5 j) ∧
     (∀ b, (0 ≤ b ∧ b < 7) ↔ ∃ i, i < 5 ∧ chunkStart 7 0 5 i ≤ b ∧ b ≤ chunkEnd 7 0 5 i) ∧
     (∀ i, i + 1 < 5 → chunkStart 7 0 5 (i + 1) ≤ 7 - 1 →
       chunkStart 7 0 5 (i + 1) = chunkEnd 7 0 5 i + 1)) :=
  ⟨⟨by decide, by decide⟩, downloadChunks_partition 7 0 5 (by decide) (by decide)⟩

/-- Claim C1: on equal-length series with at least one valid row, the
computed NSE is 1 minus the sum of squared observed-minus-simulated
differences over the sum of squared deviations of the observed values from
their mean, both over the masked rows; and when that denominator is zero
the result is NaN (none) rather than an error. -/
theorem calculateTimeseriesStats_nse (obs sim : List (Option ℚ))
    (hlen : obs.length = sim.length)
    (hvalid : 0 < (validPairs obs sim).length) :
    (((validPairs obs sim).map
        (fun pr => (pr.1 - ((validPairs obs sim).map Prod.fst).sum /
          ((((validPairs obs sim).map Prod.fst).length : ℚ))) ^ 2)).sum ≠ 0 →
      calculateNSE obs sim = Except.ok (some (1 -
        ((validPairs obs sim).map (fun pr => (pr.1 - pr.2) ^ 2)).sum /
        ((validPairs obs sim).map
          (fun pr => (pr.1 - ((validPairs obs sim).map Prod.fst).sum /
            ((((validPairs obs sim).map Prod.fst).length : ℚ))) ^ 2)).sum))) ∧
    (((validPairs obs sim).map
        (fun pr => (pr.1 - ((validPairs obs sim).map Prod.fst).sum /
          ((((validPairs obs sim).map Prod.fst).length : ℚ))) ^ 2)).sum = 0 →
      calculateNSE obs sim = Except.ok none) := by
  have hne : ¬ (validPairs obs sim).length = 0 := by omega
  have hmap : ∀ m : ℚ,
      ((validPairs obs sim).map Prod.fst).map (fun o => (o - m) ^ 2) =
        (validPairs obs sim).map (fun pr => (pr.1 - m) ^ 2) := by
    intro m
    rw [List.map_map]
    rfl
  constructor <;> intro hd
  · unfold calculateNSE nseOfPairs
    rw [if_neg hne]
    simp only [hmap, List.length_map] at hd ⊢
    rw [if_pos (by exact hd)]
  · unfold calculateNSE nseOfPairs
    rw [if_neg hne]
    simp only [hmap, List.length_map] at hd ⊢
    rw [if_neg (by simp [hd])]

/-- Witness for calculateTimeseriesStats_nse: with observed values 1, 2 and
simulated values 1, 1 the formula applies (the variance denominator is
one half, so the hypothesis and the nonzero branch are dischargeable). -/
theorem calculateTimeseriesStats_nse_witness :
    ([some 1, some 2] : List (Option ℚ)).length =
      ([some 1, some 1] : List (Option ℚ)).length ∧
    0 < (validPairs [some 1, some 2] [some 1, some 1]).length ∧
    ((((validPairs [some 1, some 2] [some 1, some 1]).map
        (fun pr => (pr.1 - ((validPairs [some 1, some 2] [some 1, some 1]).map Prod.fst).sum /
          ((((validPairs [some 1, some 2] [some 1, some 1]).map Prod.fst).length : ℚ))) ^ 2)).sum ≠ 0 →
      calculateNSE [some 1, some 2] [some 1, some 1] = Except.ok (some (1 -
        ((validPairs [some 1, some 2] [some 1, some 1]).map (fun pr => (pr.1 - pr.2) ^ 2)).sum /
        ((validPairs [some 1, some 2] [some 1, some 1]).map
          (fun pr => (pr.1 - ((validPairs [some 1, some 2] [some 1, some 1]).map Prod.fst).sum /
            ((((validPairs [some 1, some 2] [some 1, some 1]).map Prod.fst).length : ℚ))) ^ 2)).sum))) ∧
    (((validPairs [some 1, some 2] [some 1, some 1]).map
        (fun pr => (pr.1 - ((validPairs [some 1, some 2] [some 1, some 1]).map Prod.fst).sum /
          ((((validPairs [some 1, some 2] [some 1, some 1]).map Prod.fst).length : ℚ))) ^ 2)).sum = 0 →
      calculateNSE [some 1, some 2] [some 1, some 1] = Except.ok none)) :=
  ⟨rfl, by decide,
   calculateTimeseriesStats_nse [some 1, some 2] [some 1, some 1] rfl (by decide)⟩

end Ccfx
